import Mathlib

/-!
Verification of a local, filesystem-backed content cache (`restoreCache` /
`saveCache` from `src/cache/local/index.ts`).

The two public operations are shallowly embedded as pure Lean functions over
an explicit environment of external collaborators (compression probe, path
resolution, filesystem snapshot, archive engine, store commit, unlink).  Each
fallible collaborator call is modelled as an `Except JsError _` value: the
`.error e` case models the call throwing the JavaScript error `e`.  The
embedding returns, besides the JS result-or-thrown-error, the list of log
messages emitted through the logging collaborator and the list of effectful
collaborator calls performed, in order.

The helper module `cacheUtils` and the tar wrapper are not part of the
sources; they are modelled from the spec as opaque environment fields (spec
§4.2 StoreLayout: pure, deterministic path construction; §2/§3: compression
method resolved from an external capability probe; §6: filesystem and archive
engine collaborators).
-/

namespace LocalCache

/-- A thrown JavaScript error.  The code distinguishes error kinds by the
`name` property (string comparison against `ValidationError.name` /
`ReserveCacheError.name`), so the model carries the name and the message. -/
structure JsError where
  name : String
  message : String
deriving DecidableEq

/-- `new ValidationError(msg)` — `name` is set to "ValidationError". -/
def validationError (msg : String) : JsError := ⟨"ValidationError", msg⟩

/-- `new ReserveCacheError(msg)` — `name` is set to "ReserveCacheError". -/
def reserveCacheError (msg : String) : JsError := ⟨"ReserveCacheError", msg⟩

/-- `new Error(msg)` — a plain JS `Error`, whose `name` is "Error". -/
def plainError (msg : String) : JsError := ⟨"Error", msg⟩

instance {ε α : Type} [DecidableEq ε] [DecidableEq α] : DecidableEq (Except ε α)
  | .ok x, .ok y =>
    if h : x = y then isTrue (congrArg Except.ok h)
    else isFalse (fun hc => h (Except.ok.inj hc))
  | .error x, .error y =>
    if h : x = y then isTrue (congrArg Except.error h)
    else isFalse (fun hc => h (Except.error.inj hc))
  | .ok _, .error _ => isFalse (fun hc => Except.noConfusion hc)
  | .error _, .ok _ => isFalse (fun hc => Except.noConfusion hc)

/-- A message sent to the logging collaborator (`core.debug` / `core.info` /
`core.warning`).  Logging is fire-and-forget and never affects control flow. -/
inductive LogEntry where
  | debug (msg : String)
  | info (msg : String)
  | warning (msg : String)
deriving DecidableEq

/-- An effectful collaborator call, recorded in order of execution.  Logging
calls are kept separately (in the log list), because the spec treats the log
sink as a non-filesystem collaborator. -/
inductive Event where
  | compressionProbe
  | resolvePathsCall (paths : List String)
  | createTempDirectoryCall
  | readdir (dir : String)
  | listTarCall (archive : String)
  | getSize (archive : String)
  | extractTarCall (archive : String)
  | createTarCall (folder : String)
  | storeCacheFileCall (src dest : String)
  | unlink (file : String)
deriving DecidableEq

/-- Modelled from the spec: the compression method is "an enumerated choice
(e.g. none / zstd / gzip) resolved once per operation from the external
archive-engine's capability probe" (`utils.getCompressionMethod` is not in the
sources). -/
inductive CompressionMethod where
  | noCompression
  | gzip
  | zstd
deriving DecidableEq

/-- The fields of `fs.statSync`'s result that the code consults:
`stats.isFile()` and `stats.mtime.getTime()` (modification time in
milliseconds). -/
structure Stats where
  isFile : Bool
  mtimeMs : Int
deriving DecidableEq

/-- Modelled from the spec: `path.join` of two segments, POSIX separator model
(spec §4.2: path construction is pure and deterministic). -/
def pathJoin (a b : String) : String := a ++ "/" ++ b

/-- JS `it.startsWith(key)`: the character sequence of `key` is a prefix of
the character sequence of `it`. -/
def strStartsWith (s pre : String) : Bool := pre.data.isPrefixOf s.data

/-- Log-message model of `JSON.stringify` on a string list; the rendered text
never influences control flow. -/
def stringifyKeys (keys : List String) : String := String.intercalate "," keys

/-- Log-message model of `Math.round(n / (1024 * 1024))` for a byte count. -/
def roundMb (n : Nat) : Nat := (n + 524288) / 1048576

/-- `checkPaths` (index.ts lines 24-30): an empty path list is a
ValidationError. -/
def checkPaths (paths : List String) : Except JsError Unit :=
  if paths.length = 0 then
    .error (validationError "Path Validation Error: At least one directory or file path is required")
  else .ok ()

/-- `checkKey` (index.ts lines 32-44): a key longer than 512 characters is
rejected; then the key must match `^[^,]*$`, i.e. contain no comma. -/
def checkKey (key : String) : Except JsError Unit :=
  if key.length > 512 then
    .error (validationError ("Key Validation Error: " ++ key ++ " cannot be larger than 512 characters."))
  else if key.data.any (fun c => c == ',') then
    .error (validationError ("Key Validation Error: " ++ key ++ " cannot contain commas."))
  else .ok ()

/-- The `for (const key of keys) checkKey(key)` loop of `restoreCache`
(lines 74-76): first failing key wins. -/
def checkKeys : List String → Except JsError Unit
  | [] => .ok ()
  | k :: ks =>
    match checkKey k with
    | .error e => .error e
    | .ok _ => checkKeys ks

/-- The per-key candidate pipeline of `restoreCache` (lines 86-94), before
sorting: entry-directory names starting with the key, mapped to
`path.join(repoCachePath, dir, cacheFileName)`, kept when the file exists
(`existsSync`/`statSync` on a consistent snapshot: the snapshot `fs` returns
`some stats` exactly when the path exists) and `stats.isFile()` holds. -/
def candidatesForKey (fs : String → Option Stats) (repoCachePath cacheFileName : String)
    (dirEntries : List String) (key : String) : List (String × Stats) :=
  (((dirEntries.filter (fun it => strStartsWith it key)).map
      (fun dir => pathJoin (pathJoin repoCachePath dir) cacheFileName)).filterMap
      (fun filePath => (fs filePath).map (fun stats => (filePath, stats)))).filter
    (fun it => it.2.isFile)

/-- The comparator of line 96, `(a, b) => b.stats.mtime.getTime() -
a.stats.mtime.getTime()`, as the ordering it induces: `a` sorts no later than
`b` iff `b`'s mtime is at most `a`'s (descending mtime). -/
def mtimeDescLe (a b : String × Stats) : Bool := decide (b.2.mtimeMs ≤ a.2.mtimeMs)

/-- Stable insertion of an element into a list sorted by `mtimeDescLe`. -/
def insertDesc (x : String × Stats) : List (String × Stats) → List (String × Stats)
  | [] => [x]
  | y :: ys => if mtimeDescLe x y then x :: y :: ys else y :: insertDesc x ys

/-- Stable sort by descending mtime.  `Array.prototype.sort` is stable
(ES2019), and any stable sort for a given total preorder produces the same
output, so stable insertion sort is an exact model of line 95-97. -/
def sortDesc : List (String × Stats) → List (String × Stats)
  | [] => []
  | x :: xs => insertDesc x (sortDesc xs)

/-- `matchedCaches` for one key (lines 86-97): the filtered candidates sorted
by descending archive mtime. -/
def matchedCaches (fs : String → Option Stats) (repoCachePath cacheFileName : String)
    (dirEntries : List String) (key : String) : List (String × Stats) :=
  sortDesc (candidatesForKey fs repoCachePath cacheFileName dirEntries key)

/-- The key loop (lines 85-104): scan keys in order; the first key whose
`matchedCaches` is non-empty wins (`break`), yielding the matched key and the
selected archive path (`matchedCaches.at(0)`). -/
def firstMatch (fs : String → Option Stats) (repoCachePath cacheFileName : String)
    (dirEntries : List String) : List String → Option (String × String)
  | [] => none
  | key :: rest =>
    match (matchedCaches fs repoCachePath cacheFileName dirEntries key).head? with
    | some info => some (key, info.1)
    | none => firstMatch fs repoCachePath cacheFileName dirEntries rest

/-- The external collaborators consumed by `restoreCache`.  Layout functions
(`getRepoCacheStorePath`, `getCacheFileName`) are pure per spec §4.2; the
remaining fields model fallible external calls and the filesystem snapshot. -/
structure RestoreEnv where
  getCompressionMethod : Except JsError CompressionMethod
  getRepoCacheStorePath : Option String → String
  getCacheFileName : CompressionMethod → String
  readdir : String → Except JsError (List String)
  fs : String → Option Stats
  isDebug : Bool
  listTar : String → CompressionMethod → Except JsError Unit
  getArchiveFileSizeInBytes : String → Except JsError Nat
  extractTar : String → CompressionMethod → Except JsError Unit

/-- The observable outcome of a `restoreCache` call: the JS result (`.error e`
models a thrown `e`; `.ok none` models `return undefined`), the log messages,
and the effectful collaborator calls in order. -/
structure RestoreOutcome where
  result : Except JsError (Option String)
  logs : List LogEntry
  events : List Event
deriving DecidableEq

/-- Lines 110-126: after a successful (non-empty-key) match, report the
archive path, optionally list the archive in debug mode, report its size and
extract it, returning the matched key. -/
def restoreSizeAndExtract (env : RestoreEnv) (method : CompressionMethod)
    (archivePath matchedKey : String) (logs : List LogEntry) (events : List Event) :
    RestoreOutcome :=
  match env.getArchiveFileSizeInBytes archivePath with
  | .error e => ⟨.error e, logs, events ++ [.getSize archivePath]⟩
  | .ok archiveFileSize =>
    let mb := roundMb archiveFileSize
    let logs2 := logs ++
      [LogEntry.info ("Cache Size: ~" ++ toString mb ++ " MB (" ++ toString archiveFileSize ++ " B)")]
    match env.extractTar archivePath method with
    | .error e => ⟨.error e, logs2, events ++ [.getSize archivePath, .extractTarCall archivePath]⟩
    | .ok _ =>
      ⟨.ok (some matchedKey), logs2 ++ [LogEntry.info "Cache restored successfully"],
        events ++ [.getSize archivePath, .extractTarCall archivePath]⟩

/-- The try block of `restoreCache` (lines 81-126).  Note line 105: the code
initialises `matchedKey` to `""` and afterwards treats `matchedKey === ""` as
the no-match sentinel, so a match found for an empty key is conflated with
"cache not found". -/
def restoreTry (env : RestoreEnv) (method : CompressionMethod)
    (repoCachePath cacheFileName : String) (keys : List String) : RestoreOutcome :=
  match env.readdir repoCachePath with
  | .error e => ⟨.error e, [], [.readdir repoCachePath]⟩
  | .ok dirEntries =>
    match firstMatch env.fs repoCachePath cacheFileName dirEntries keys with
    | none => ⟨.ok none, [], [.readdir repoCachePath]⟩
    | some (matchedKey, archivePath) =>
      if matchedKey = "" then
        ⟨.ok none, [], [.readdir repoCachePath]⟩
      else
        let logs1 := [LogEntry.debug ("Archive Path: " ++ archivePath)]
        if env.isDebug then
          match env.listTar archivePath method with
          | .error e =>
            ⟨.error e, logs1, [.readdir repoCachePath, .listTarCall archivePath]⟩
          | .ok _ =>
            restoreSizeAndExtract env method archivePath matchedKey logs1
              [.readdir repoCachePath, .listTarCall archivePath]
        else
          restoreSizeAndExtract env method archivePath matchedKey logs1
            [.readdir repoCachePath]

/-- The catch clause of `restoreCache` (lines 127-134) together with the
final `return undefined` (line 144), applied to the try block's outcome:
rethrow errors named "ValidationError", downgrade every other error to a
warning and return `undefined`. -/
def restoreCatch (logs0 : List LogEntry) (body : RestoreOutcome) : RestoreOutcome :=
  match body.result with
  | .ok v => ⟨.ok v, logs0 ++ body.logs, Event.compressionProbe :: body.events⟩
  | .error e =>
    if e.name = "ValidationError" then
      ⟨.error e, logs0 ++ body.logs, Event.compressionProbe :: body.events⟩
    else
      let msg := e.message
      ⟨.ok none, logs0 ++ body.logs ++ [LogEntry.warning ("Failed to restore: " ++ msg)],
        Event.compressionProbe :: body.events⟩

/-- `restoreCache` (index.ts lines 55-145).  Validation happens first; the
compression probe and store-layout resolution run after validation but
*before* the try/catch (lines 78-80); the catch is `restoreCatch` above.  The
commented-out finally block performs no deletion. -/
def restoreCache (env : RestoreEnv) (paths : List String) (primaryKey : String)
    (restoreKeys : List String) (cacheBasePath : Option String) : RestoreOutcome :=
  match checkPaths paths with
  | .error e => ⟨.error e, [], []⟩
  | .ok _ =>
    let keys := primaryKey :: restoreKeys
    let logs0 := [LogEntry.debug "Resolved Keys:", LogEntry.debug (stringifyKeys keys)]
    if keys.length > 10 then
      ⟨.error (validationError "Key Validation Error: Keys are limited to a maximum of 10."),
        logs0, []⟩
    else
      match checkKeys keys with
      | .error e => ⟨.error e, logs0, []⟩
      | .ok _ =>
        match env.getCompressionMethod with
        | .error e => ⟨.error e, logs0, [.compressionProbe]⟩
        | .ok method =>
          let repoCachePath := env.getRepoCacheStorePath cacheBasePath
          let cacheFileName := env.getCacheFileName method
          restoreCatch logs0 (restoreTry env method repoCachePath cacheFileName keys)

/-- The external collaborators consumed by `saveCache`. -/
structure SaveEnv where
  getCompressionMethod : Except JsError CompressionMethod
  getRepoCacheStorePath : Option String → String
  getCacheFileName : CompressionMethod → String
  resolvePaths : List String → Except JsError (List String)
  createTempDirectory : Except JsError String
  createTar : String → List String → CompressionMethod → Except JsError Unit
  isDebug : Bool
  listTar : String → CompressionMethod → Except JsError Unit
  getArchiveFileSizeInBytes : String → Except JsError Nat
  storeCacheFile : String → String → Except JsError Unit
  unlinkFile : String → Except JsError Unit

/-- The observable outcome of a `saveCache` call: the JS result (`.error e`
models a thrown `e`; `.ok n` models `return n`), logs, and effectful calls. -/
structure SaveOutcome where
  result : Except JsError Int
  logs : List LogEntry
  events : List Event
deriving DecidableEq

/-- The try block of `saveCache` (lines 183-200): create the archive,
optionally list it in debug mode, report its size, and commit it into the
per-key entry directory, returning 1. -/
def saveTry (env : SaveEnv) (method : CompressionMethod) (cachePaths : List String)
    (archiveFolder archivePath key : String) (cacheBasePath : Option String) : SaveOutcome :=
  match env.createTar archiveFolder cachePaths method with
  | .error e => ⟨.error e, [], [.createTarCall archiveFolder]⟩
  | .ok _ =>
    if env.isDebug then
      match env.listTar archivePath method with
      | .error e => ⟨.error e, [], [.createTarCall archiveFolder, .listTarCall archivePath]⟩
      | .ok _ =>
        saveSizeAndStore env method archivePath key cacheBasePath
          [.createTarCall archiveFolder, .listTarCall archivePath]
    else
      saveSizeAndStore env method archivePath key cacheBasePath
        [.createTarCall archiveFolder]
where
  /-- Lines 188-200: size report and commit. -/
  saveSizeAndStore (env : SaveEnv) (_method : CompressionMethod)
      (archivePath key : String) (cacheBasePath : Option String) (events : List Event) :
      SaveOutcome :=
    match env.getArchiveFileSizeInBytes archivePath with
    | .error e => ⟨.error e, [], events ++ [.getSize archivePath]⟩
    | .ok archiveFileSize =>
      let logs :=
        [LogEntry.debug ("File Size: " ++ toString archiveFileSize),
         LogEntry.debug ("Saving Cache (Key: " ++ key ++ ")"),
         LogEntry.debug ("Cache Store Path: " ++ toString cacheBasePath)]
      let cacheStorePath := pathJoin (env.getRepoCacheStorePath cacheBasePath) key
      match env.storeCacheFile archivePath cacheStorePath with
      | .error e =>
        ⟨.error e, logs, events ++ [.getSize archivePath, .storeCacheFileCall archivePath cacheStorePath]⟩
      | .ok _ =>
        ⟨.ok 1, logs, events ++ [.getSize archivePath, .storeCacheFileCall archivePath cacheStorePath]⟩

/-- The catch clause of `saveCache` (lines 201-210): rethrow errors named
"ValidationError"; report errors named "ReserveCacheError" via `core.info`;
report anything else via `core.warning`; the two non-validation branches fall
through to `return -1`. -/
def saveCatch (e : JsError) : Except JsError Int × List LogEntry :=
  if e.name = "ValidationError" then (.error e, [])
  else if e.name = "ReserveCacheError" then
    let msg := e.message
    (.ok (-1), [LogEntry.info ("Failed to save: " ++ msg)])
  else
    let msg := e.message
    (.ok (-1), [LogEntry.warning ("Failed to save: " ++ msg)])

/-- The catch applied to the try block's outcome: a normal return passes
through unchanged. -/
def applyCatch (r : Except JsError Int) : Except JsError Int × List LogEntry :=
  match r with
  | .ok v => (.ok v, [])
  | .error e => saveCatch e

/-- The finally clause of `saveCache` (lines 211-218): always attempt to
unlink the temporary archive; a deletion failure is logged at debug level and
never alters the outcome (JS `finally` without return/throw). -/
def runFinally (env : SaveEnv) (archivePath : String) (o : SaveOutcome) : SaveOutcome :=
  match env.unlinkFile archivePath with
  | .ok _ => ⟨o.result, o.logs, o.events ++ [.unlink archivePath]⟩
  | .error e =>
    let msg := e.message
    ⟨o.result, o.logs ++ [LogEntry.debug ("Failed to delete archive: " ++ msg)],
      o.events ++ [.unlink archivePath]⟩

/-- `saveCache` (index.ts lines 155-219).  Validation first; then compression
resolution (line 163), path resolution (line 165) with an explicit *plain*
`Error` thrown when the resolved set is empty (lines 169-173), and temp
directory creation (line 175) — all of which run *before* the try/catch, so
their failures propagate to the caller.  The try/catch/finally covers only
lines 183-218. -/
def saveCache (env : SaveEnv) (paths : List String) (key : String)
    (cacheBasePath : Option String) : SaveOutcome :=
  match checkPaths paths with
  | .error e => ⟨.error e, [], []⟩
  | .ok _ =>
    match checkKey key with
    | .error e => ⟨.error e, [], []⟩
    | .ok _ =>
      match env.getCompressionMethod with
      | .error e => ⟨.error e, [], [.compressionProbe]⟩
      | .ok method =>
        match env.resolvePaths paths with
        | .error e => ⟨.error e, [], [.compressionProbe, .resolvePathsCall paths]⟩
        | .ok cachePaths =>
          let logs0 := [LogEntry.debug "Cache Paths:", LogEntry.debug (stringifyKeys cachePaths)]
          if cachePaths.length = 0 then
            ⟨.error (plainError "Path Validation Error: Path(s) specified in the action for caching do(es) not exist, hence no cache is being saved."),
              logs0, [.compressionProbe, .resolvePathsCall paths]⟩
          else
            match env.createTempDirectory with
            | .error e =>
              ⟨.error e, logs0, [.compressionProbe, .resolvePathsCall paths, .createTempDirectoryCall]⟩
            | .ok archiveFolder =>
              let archivePath := pathJoin archiveFolder (env.getCacheFileName method)
              let logs1 := logs0 ++ [LogEntry.debug ("Archive Path: " ++ archivePath)]
              let body := saveTry env method cachePaths archiveFolder archivePath key cacheBasePath
              let caught := applyCatch body.result
              runFinally env archivePath
                ⟨caught.1, logs1 ++ body.logs ++ caught.2,
                  [.compressionProbe, .resolvePathsCall paths, .createTempDirectoryCall] ++ body.events⟩

/-- A concrete restore environment: two stored entries `build-42` (mtime 200)
and `build-41` (mtime 300, more recent), gzip compression, all archive-engine
calls succeeding. -/
def sampleRestoreEnv : RestoreEnv where
  getCompressionMethod := .ok .gzip
  getRepoCacheStorePath := fun b => match b with | some p => p | none => "home/cache"
  getCacheFileName := fun _ => "cache.tgz"
  readdir := fun _ => .ok ["build-42", "build-41"]
  fs := fun p =>
    if p = "home/cache/build-42/cache.tgz" then some ⟨true, 200⟩
    else if p = "home/cache/build-41/cache.tgz" then some ⟨true, 300⟩
    else none
  isDebug := false
  listTar := fun _ _ => .ok ()
  getArchiveFileSizeInBytes := fun _ => .ok 1048576
  extractTar := fun _ _ => .ok ()

/-- A concrete save environment in which every collaborator call succeeds. -/
def sampleSaveEnv : SaveEnv where
  getCompressionMethod := .ok .gzip
  getRepoCacheStorePath := fun b => match b with | some p => p | none => "home/cache"
  getCacheFileName := fun _ => "cache.tgz"
  resolvePaths := fun ps => .ok ps
  createTempDirectory := .ok "tmp/dir"
  createTar := fun _ _ _ => .ok ()
  isDebug := false
  listTar := fun _ _ => .ok ()
  getArchiveFileSizeInBytes := fun _ => .ok 1048576
  storeCacheFile := fun _ _ => .ok ()
  unlinkFile := fun _ => .ok ()

/-- A save environment whose path resolution yields the empty set. -/
def emptyResolveSaveEnv : SaveEnv :=
  { sampleSaveEnv with resolvePaths := fun _ => .ok [] }

/-- A restore environment whose compression-method probe fails with a plain
(non-validation) error. -/
def probeFailRestoreEnv : RestoreEnv :=
  { sampleRestoreEnv with getCompressionMethod := .error (plainError "zstd probe failed") }

/-- A restore environment whose store-root directory listing fails (e.g. the
cache root does not exist yet). -/
def readdirFailRestoreEnv : RestoreEnv :=
  { sampleRestoreEnv with readdir := fun _ => .error (plainError "ENOENT") }

/-- A save environment whose commit hits an occupied destination entry and
throws `ReserveCacheError`. -/
def reserveConflictSaveEnv : SaveEnv :=
  { sampleSaveEnv with storeCacheFile := fun _ _ => .error (reserveCacheError "occupied") }

/-- A save environment whose commit throws an error named "ValidationError"
(the catch clause rethrows it). -/
def validationStoreSaveEnv : SaveEnv :=
  { sampleSaveEnv with storeCacheFile := fun _ _ => .error (validationError "boom") }

/-! ### Helper lemmas: validation and sorting -/

theorem checkPaths_error_name {paths : List String} {e : JsError}
    (h : checkPaths paths = .error e) : e.name = "ValidationError" := by
  unfold checkPaths at h
  split at h
  · cases h; rfl
  · cases h

theorem checkPaths_eq_ok {paths : List String} (h : paths ≠ []) : checkPaths paths = .ok () := by
  unfold checkPaths
  simp [List.length_eq_zero, h]

theorem checkKey_error_name {key : String} {e : JsError}
    (h : checkKey key = .error e) : e.name = "ValidationError" := by
  unfold checkKey at h
  split at h
  · cases h; rfl
  · split at h
    · cases h; rfl
    · cases h

theorem checkKeys_error_name {keys : List String} {e : JsError}
    (h : checkKeys keys = .error e) : e.name = "ValidationError" := by
  induction keys with
  | nil => cases h
  | cons k ks ih =>
    unfold checkKeys at h
    cases hk : checkKey k with
    | error e' => rw [hk] at h; cases h; exact checkKey_error_name hk
    | ok _ => rw [hk] at h; exact ih h

theorem checkKey_invalid {key : String} (h : 512 < key.length ∨ ',' ∈ key.data) :
    ∃ e, checkKey key = .error e ∧ e.name = "ValidationError" := by
  unfold checkKey
  by_cases hlen : 512 < key.length
  · simp only [gt_iff_lt, hlen, if_true]
    exact ⟨_, rfl, rfl⟩
  · rcases h with h | h
    · exact absurd h hlen
    · simp only [gt_iff_lt, hlen, if_false]
      have : key.data.any (fun c => c == ',') = true := by
        simp only [List.any_eq_true]
        exact ⟨',', h, by simp⟩
      rw [this]
      exact ⟨_, rfl, rfl⟩

theorem mem_insertDesc {x a : String × Stats} {l : List (String × Stats)} :
    a ∈ insertDesc x l ↔ a = x ∨ a ∈ l := by
  induction l with
  | nil => simp [insertDesc]
  | cons y ys ih =>
    unfold insertDesc
    split
    · simp
    · simp [ih]
      tauto

theorem mem_sortDesc {a : String × Stats} {l : List (String × Stats)} :
    a ∈ sortDesc l ↔ a ∈ l := by
  induction l with
  | nil => simp [sortDesc]
  | cons x xs ih =>
    unfold sortDesc
    rw [mem_insertDesc]
    simp [ih]

theorem pairwise_insertDesc {x : String × Stats} {l : List (String × Stats)}
    (h : l.Pairwise (fun a b => b.2.mtimeMs ≤ a.2.mtimeMs)) :
    (insertDesc x l).Pairwise (fun a b => b.2.mtimeMs ≤ a.2.mtimeMs) := by
  induction l with
  | nil => simp [insertDesc]
  | cons y ys ih =>
    unfold insertDesc
    rcases List.pairwise_cons.mp h with ⟨hy, hys⟩
    split
    next hle =>
      have hxy : y.2.mtimeMs ≤ x.2.mtimeMs := by
        unfold mtimeDescLe at hle
        exact of_decide_eq_true hle
      refine List.pairwise_cons.mpr ⟨?_, h⟩
      intro z hz
      rcases List.mem_cons.mp hz with rfl | hz
      · exact hxy
      · exact le_trans (hy z hz) hxy
    next hle =>
      have hyx : x.2.mtimeMs ≤ y.2.mtimeMs := by
        unfold mtimeDescLe at hle
        simp only [decide_eq_true_eq] at hle
        omega
      refine List.pairwise_cons.mpr ⟨?_, ih hys⟩
      intro z hz
      rcases mem_insertDesc.mp hz with rfl | hz
      · exact hyx
      · exact hy z hz

theorem pairwise_sortDesc (l : List (String × Stats)) :
    (sortDesc l).Pairwise (fun a b => b.2.mtimeMs ≤ a.2.mtimeMs) := by
  induction l with
  | nil => simp [sortDesc]
  | cons x xs ih =>
    unfold sortDesc
    exact pairwise_insertDesc ih

theorem sortDesc_head_max {l : List (String × Stats)} {info : String × Stats}
    (h : (sortDesc l).head? = some info) :
    info ∈ l ∧ ∀ c ∈ l, c.2.mtimeMs ≤ info.2.mtimeMs := by
  rcases List.head?_eq_some_iff.mp h with ⟨t, ht⟩
  constructor
  · exact mem_sortDesc.mp (ht ▸ List.mem_cons_self info t)
  · intro c hc
    have hcs : c ∈ sortDesc l := mem_sortDesc.mpr hc
    rw [ht] at hcs
    rcases List.mem_cons.mp hcs with rfl | hcs
    · exact le_refl _
    · have hp := pairwise_sortDesc l
      rw [ht] at hp
      exact (List.pairwise_cons.mp hp).1 c hcs

theorem sortDesc_head_none {l : List (String × Stats)} :
    (sortDesc l).head? = none ↔ l = [] := by
  rw [List.head?_eq_none_iff]
  constructor
  · intro h
    cases l with
    | nil => rfl
    | cons x xs =>
      exfalso
      have : x ∈ sortDesc (x :: xs) := mem_sortDesc.mpr (List.mem_cons_self x xs)
      rw [h] at this
      cases this
  · intro h
    rw [h]
    rfl

/-! ### Helper lemmas: restoreCache shape -/

theorem restoreCatch_error_name {logs0 : List LogEntry} {body : RestoreOutcome} {e : JsError}
    (h : (restoreCatch logs0 body).result = .error e) : e.name = "ValidationError" := by
  unfold restoreCatch at h
  split at h
  · cases h
  · split at h
    next hname => cases h; exact hname
    next hname => cases h

theorem restore_error_shape {env : RestoreEnv} {paths : List String} {pk : String}
    {rks : List String} {b : Option String} {e : JsError}
    (h : (restoreCache env paths pk rks b).result = .error e) :
    e.name = "ValidationError" ∨ env.getCompressionMethod = .error e := by
  unfold restoreCache at h
  cases hp : checkPaths paths with
  | error e' =>
    rw [hp] at h
    cases h
    exact .inl (checkPaths_error_name hp)
  | ok u =>
    cases u
    rw [hp] at h
    simp only [] at h
    by_cases hc : (pk :: rks).length > 10
    · rw [if_pos hc] at h
      cases h
      exact .inl rfl
    · rw [if_neg hc] at h
      cases hk : checkKeys (pk :: rks) with
      | error e' =>
        rw [hk] at h
        cases h
        exact .inl (checkKeys_error_name hk)
      | ok u' =>
        cases u'
        rw [hk] at h
        simp only [] at h
        cases hm : env.getCompressionMethod with
        | error e' =>
          rw [hm] at h
          cases h
          exact .inr rfl
        | ok m =>
          rw [hm] at h
          simp only [] at h
          exact .inl (restoreCatch_error_name h)

theorem restoreCache_happy {env : RestoreEnv} {paths : List String} {pk : String}
    {rks : List String} {b : Option String} {m : CompressionMethod}
    (hp : paths ≠ []) (hc : ¬ (pk :: rks).length > 10)
    (hk : checkKeys (pk :: rks) = .ok ()) (hm : env.getCompressionMethod = .ok m) :
    restoreCache env paths pk rks b =
      restoreCatch [LogEntry.debug "Resolved Keys:", LogEntry.debug (stringifyKeys (pk :: rks))]
        (restoreTry env m (env.getRepoCacheStorePath b) (env.getCacheFileName m) (pk :: rks)) := by
  unfold restoreCache
  rw [checkPaths_eq_ok hp]
  simp only []
  rw [if_neg hc, hk]
  simp only []
  rw [hm]

/-! ### Helper lemmas: saveCache shape -/

theorem runFinally_result (env : SaveEnv) (p : String) (o : SaveOutcome) :
    (runFinally env p o).result = o.result := by
  unfold runFinally
  split <;> rfl

theorem unlink_mem_runFinally (env : SaveEnv) (p : String) (o : SaveOutcome) :
    Event.unlink p ∈ (runFinally env p o).events := by
  unfold runFinally
  split <;> simp

theorem runFinally_mem_logs {env : SaveEnv} {p : String} {o : SaveOutcome} {x : LogEntry}
    (h : x ∈ o.logs) : x ∈ (runFinally env p o).logs := by
  unfold runFinally
  split <;> simp [h]

theorem runFinally_no_warning {env : SaveEnv} {p : String} {o : SaveOutcome} {w : String}
    (h : LogEntry.warning w ∉ o.logs) : LogEntry.warning w ∉ (runFinally env p o).logs := by
  unfold runFinally
  split
  · simpa using h
  · simp [h]

theorem saveSizeAndStore_ok_val {env : SaveEnv} {m : CompressionMethod}
    {a k : String} {b : Option String} {evs : List Event} {v : Int}
    (h : (saveTry.saveSizeAndStore env m a k b evs).result = .ok v) : v = 1 := by
  unfold saveTry.saveSizeAndStore at h
  split at h
  · cases h
  · simp only [] at h
    split at h
    · cases h
    · cases h
      rfl

theorem saveTry_ok_val {env : SaveEnv} {m : CompressionMethod} {cps : List String}
    {f a k : String} {b : Option String} {v : Int}
    (h : (saveTry env m cps f a k b).result = .ok v) : v = 1 := by
  unfold saveTry at h
  split at h
  · cases h
  · split at h
    · split at h
      · cases h
      · exact saveSizeAndStore_ok_val h
    · exact saveSizeAndStore_ok_val h

theorem applyCatch_error_name {r : Except JsError Int} {e : JsError}
    (h : (applyCatch r).1 = .error e) : e.name = "ValidationError" := by
  unfold applyCatch at h
  split at h
  · cases h
  · unfold saveCatch at h
    split at h
    next hname => cases h; exact hname
    next hname =>
      split at h
      · cases h
      · cases h

theorem save_error_shape {env : SaveEnv} {paths : List String} {key : String}
    {b : Option String} {e : JsError}
    (h : (saveCache env paths key b).result = .error e) :
    e.name = "ValidationError" ∨ env.getCompressionMethod = .error e
    ∨ env.resolvePaths paths = .error e
    ∨ (env.resolvePaths paths = .ok [] ∧
        e = plainError "Path Validation Error: Path(s) specified in the action for caching do(es) not exist, hence no cache is being saved.")
    ∨ env.createTempDirectory = .error e := by
  unfold saveCache at h
  cases hp : checkPaths paths with
  | error e' =>
    rw [hp] at h
    cases h
    exact .inl (checkPaths_error_name hp)
  | ok u =>
    cases u
    rw [hp] at h
    simp only [] at h
    cases hk : checkKey key with
    | error e' =>
      rw [hk] at h
      cases h
      exact .inl (checkKey_error_name hk)
    | ok u' =>
      cases u'
      rw [hk] at h
      simp only [] at h
      cases hm : env.getCompressionMethod with
      | error e' =>
        rw [hm] at h
        cases h
        exact .inr (.inl rfl)
      | ok m =>
        rw [hm] at h
        simp only [] at h
        cases hr : env.resolvePaths paths with
        | error e' =>
          rw [hr] at h
          cases h
          exact .inr (.inr (.inl rfl))
        | ok cps =>
          rw [hr] at h
          simp only [] at h
          by_cases hlen : cps.length = 0
          · rw [if_pos hlen] at h
            cases h
            exact .inr (.inr (.inr (.inl ⟨by rw [List.length_eq_zero.mp hlen], rfl⟩)))
          · rw [if_neg hlen] at h
            cases htd : env.createTempDirectory with
            | error e' =>
              rw [htd] at h
              cases h
              exact .inr (.inr (.inr (.inr rfl)))
            | ok tmp =>
              rw [htd] at h
              simp only [] at h
              rw [runFinally_result] at h
              exact .inl (applyCatch_error_name h)

theorem save_ok_shape {env : SaveEnv} {paths : List String} {key : String}
    {b : Option String} {v : Int}
    (h : (saveCache env paths key b).result = .ok v) : v = 1 ∨ v = -1 := by
  unfold saveCache at h
  cases hp : checkPaths paths with
  | error e' => rw [hp] at h; cases h
  | ok u =>
    cases u
    rw [hp] at h
    simp only [] at h
    cases hk : checkKey key with
    | error e' => rw [hk] at h; cases h
    | ok u' =>
      cases u'
      rw [hk] at h
      simp only [] at h
      cases hm : env.getCompressionMethod with
      | error e' => rw [hm] at h; cases h
      | ok m =>
        rw [hm] at h
        simp only [] at h
        cases hr : env.resolvePaths paths with
        | error e' => rw [hr] at h; cases h
        | ok cps =>
          rw [hr] at h
          simp only [] at h
          by_cases hlen : cps.length = 0
          · rw [if_pos hlen] at h; cases h
          · rw [if_neg hlen] at h
            cases htd : env.createTempDirectory with
            | error e' => rw [htd] at h; cases h
            | ok tmp =>
              rw [htd] at h
              simp only [] at h
              rw [runFinally_result] at h
              revert h
              unfold applyCatch
              split
              next w hw =>
                intro h
                cases h
                exact .inl (saveTry_ok_val hw)
              next e' he =>
                intro h
                unfold saveCatch at h
                split at h
                · cases h
                · split at h
                  · cases h; exact .inr rfl
                  · cases h; exact .inr rfl

theorem saveCache_happy {env : SaveEnv} {paths : List String} {key : String}
    {b : Option String} {m : CompressionMethod} {cps : List String} {tmp : String}
    (hp : paths ≠ []) (hkey : checkKey key = .ok ())
    (hm : env.getCompressionMethod = .ok m) (hrp : env.resolvePaths paths = .ok cps)
    (hne : ¬ cps.length = 0) (htd : env.createTempDirectory = .ok tmp) :
    saveCache env paths key b =
      runFinally env (pathJoin tmp (env.getCacheFileName m))
        (let body := saveTry env m cps tmp (pathJoin tmp (env.getCacheFileName m)) key b
         let caught := applyCatch body.result
         ⟨caught.1,
          ([LogEntry.debug "Cache Paths:", LogEntry.debug (stringifyKeys cps)] ++
              [LogEntry.debug ("Archive Path: " ++ pathJoin tmp (env.getCacheFileName m))]) ++
            body.logs ++ caught.2,
          [.compressionProbe, .resolvePathsCall paths, .createTempDirectoryCall] ++ body.events⟩) := by
  unfold saveCache
  rw [checkPaths_eq_ok hp]
  simp only []
  rw [hkey]
  simp only []
  rw [hm]
  simp only []
  rw [hrp]
  simp only []
  rw [if_neg hne]
  rw [htd]

theorem saveTry_unlink_update (env : SaveEnv) (u : String → Except JsError Unit)
    (m : CompressionMethod) (cps : List String) (f a k : String) (b : Option String) :
    saveTry { env with unlinkFile := u } m cps f a k b = saveTry env m cps f a k b := rfl

theorem save_minus_one_logged {env : SaveEnv} {paths : List String} {key : String}
    {b : Option String}
    (h : (saveCache env paths key b).result = .ok (-1)) :
    ∃ s, LogEntry.info s ∈ (saveCache env paths key b).logs
      ∨ LogEntry.warning s ∈ (saveCache env paths key b).logs := by
  unfold saveCache at h ⊢
  cases hp : checkPaths paths with
  | error e' => rw [hp] at h; cases h
  | ok u =>
    rw [hp] at h
    simp only [] at h ⊢
    cases hk : checkKey key with
    | error e' => rw [hk] at h; cases h
    | ok u' =>
      rw [hk] at h
      simp only [] at h ⊢
      cases hm : env.getCompressionMethod with
      | error e' => rw [hm] at h; cases h
      | ok m =>
        rw [hm] at h
        simp only [] at h ⊢
        cases hr : env.resolvePaths paths with
        | error e' => rw [hr] at h; cases h
        | ok cps =>
          rw [hr] at h
          simp only [] at h ⊢
          by_cases hlen : cps.length = 0
          · rw [if_pos hlen] at h
            cases h
          · rw [if_neg hlen] at h ⊢
            cases htd : env.createTempDirectory with
            | error e' => rw [htd] at h; cases h
            | ok tmp =>
              rw [htd] at h
              simp only [] at h ⊢
              rw [runFinally_result] at h
              simp only [] at h
              cases hb : (saveTry env m cps tmp (pathJoin tmp (env.getCacheFileName m)) key b).result with
              | ok w =>
                rw [hb] at h
                simp [applyCatch] at h
                have := saveTry_ok_val hb
                omega
              | error e' =>
                rw [hb] at h
                by_cases hn : e'.name = "ValidationError"
                · simp [applyCatch, saveCatch, hn] at h
                · by_cases hrc : e'.name = "ReserveCacheError"
                  · refine ⟨"Failed to save: " ++ e'.message, .inl ?_⟩
                    apply runFinally_mem_logs
                    simp [applyCatch, saveCatch, hn, hrc]
                  · refine ⟨"Failed to save: " ++ e'.message, .inr ?_⟩
                    apply runFinally_mem_logs
                    simp [applyCatch, saveCatch, hn, hrc]

/-! ### Helper lemmas: cleanup events -/

theorem restoreSizeAndExtract_no_unlink {env : RestoreEnv} {m : CompressionMethod}
    {a k : String} {logs : List LogEntry} {evs : List Event} {p : String}
    (h : Event.unlink p ∈ (restoreSizeAndExtract env m a k logs evs).events) :
    Event.unlink p ∈ evs := by
  unfold restoreSizeAndExtract at h
  split at h
  · simpa using h
  · simp only [] at h
    split at h <;> simpa using h

theorem restoreTry_no_unlink {env : RestoreEnv} {m : CompressionMethod}
    {root name : String} {keys : List String} {p : String} :
    Event.unlink p ∉ (restoreTry env m root name keys).events := by
  intro h
  unfold restoreTry at h
  split at h
  · simp at h
  · split at h
    · simp at h
    · split at h
      · simp at h
      · simp only [] at h
        split at h
        · split at h
          · simp at h
          · have := restoreSizeAndExtract_no_unlink h
            simp at this
        · have := restoreSizeAndExtract_no_unlink h
          simp at this

theorem restoreCatch_no_unlink {logs0 : List LogEntry} {body : RestoreOutcome} {p : String}
    (hbody : Event.unlink p ∉ body.events) :
    Event.unlink p ∉ (restoreCatch logs0 body).events := by
  intro h
  unfold restoreCatch at h
  split at h
  · simp at h
    exact hbody h
  · split at h
    · simp at h
      exact hbody h
    · simp at h
      exact hbody h

theorem restore_no_unlink (env : RestoreEnv) (paths : List String) (pk : String)
    (rks : List String) (b : Option String) (p : String) :
    Event.unlink p ∉ (restoreCache env paths pk rks b).events := by
  intro h
  unfold restoreCache at h
  cases hp : checkPaths paths with
  | error e' => rw [hp] at h; simp at h
  | ok u =>
    rw [hp] at h
    simp only [] at h
    by_cases hc : (pk :: rks).length > 10
    · rw [if_pos hc] at h
      simp at h
    · rw [if_neg hc] at h
      cases hk : checkKeys (pk :: rks) with
      | error e' => rw [hk] at h; simp at h
      | ok u' =>
        rw [hk] at h
        simp only [] at h
        cases hm : env.getCompressionMethod with
        | error e' => rw [hm] at h; simp at h
        | ok m =>
          rw [hm] at h
          simp only [] at h
          exact restoreCatch_no_unlink restoreTry_no_unlink h

theorem save_result_unlink_irrel (env : SaveEnv) (u : String → Except JsError Unit)
    (paths : List String) (key : String) (b : Option String) :
    (saveCache { env with unlinkFile := u } paths key b).result
      = (saveCache env paths key b).result := by
  unfold saveCache
  dsimp only
  simp only [saveTry_unlink_update]
  cases hp : checkPaths paths with
  | error e' => rfl
  | ok u' =>
    simp only []
    cases hk : checkKey key with
    | error e' => rfl
    | ok u'' =>
      simp only []
      cases hm : env.getCompressionMethod with
      | error e' => rfl
      | ok m =>
        simp only []
        cases hr : env.resolvePaths paths with
        | error e' => rfl
        | ok cps =>
          simp only []
          by_cases hlen : cps.length = 0
          · rw [if_pos hlen, if_pos hlen]
          · rw [if_neg hlen, if_neg hlen]
            cases htd : env.createTempDirectory with
            | error e' => rfl
            | ok tmp =>
              simp only []
              rw [runFinally_result, runFinally_result]

theorem save_unlink_event {env : SaveEnv} {paths : List String} {key : String}
    {b : Option String} {m : CompressionMethod} {cps : List String} {tmp : String}
    (hp : paths ≠ []) (hkey : checkKey key = .ok ())
    (hm : env.getCompressionMethod = .ok m) (hrp : env.resolvePaths paths = .ok cps)
    (hne : ¬ cps.length = 0) (htd : env.createTempDirectory = .ok tmp) :
    Event.unlink (pathJoin tmp (env.getCacheFileName m)) ∈ (saveCache env paths key b).events := by
  rw [saveCache_happy hp hkey hm hrp hne htd]
  exact unlink_mem_runFinally _ _ _

theorem restoreTry_readdir_error {env : RestoreEnv} {m : CompressionMethod}
    {root name : String} {keys : List String} {e : JsError}
    (h : env.readdir root = .error e) :
    restoreTry env m root name keys = ⟨.error e, [], [.readdir root]⟩ := by
  unfold restoreTry
  rw [h]

theorem firstMatch_cons_some {fs : String → Option Stats} {root name : String}
    {entries : List String} {key : String} {info : String × Stats} {rest : List String}
    (h : (matchedCaches fs root name entries key).head? = some info) :
    firstMatch fs root name entries (key :: rest) = some (key, info.1) := by
  unfold firstMatch
  rw [h]

theorem firstMatch_append_none {fs : String → Option Stats} {root name : String}
    {entries : List String} : ∀ {pre rest : List String},
    (∀ k' ∈ pre, (matchedCaches fs root name entries k').head? = none) →
    firstMatch fs root name entries (pre ++ rest) = firstMatch fs root name entries rest
  | [], _, _ => rfl
  | a :: as, rest, hpre => by
    have ha := hpre a (List.mem_cons_self a as)
    have htail := @firstMatch_append_none fs root name entries as rest
      (fun k' hk' => hpre k' (List.mem_cons_of_mem a hk'))
    show firstMatch fs root name entries (a :: (as ++ rest)) = firstMatch fs root name entries rest
    have hstep : firstMatch fs root name entries (a :: (as ++ rest))
        = firstMatch fs root name entries (as ++ rest) := by
      conv_lhs => unfold firstMatch
      rw [ha]
    rw [hstep]
    exact htail

theorem restoreTry_happy {env : RestoreEnv} {m : CompressionMethod}
    {root name : String} {keys : List String} {dirEntries : List String}
    {mk ap : String} {sz : Nat}
    (hrd : env.readdir root = .ok dirEntries)
    (hfm : firstMatch env.fs root name dirEntries keys = some (mk, ap))
    (hmk : ¬ mk = "") (hdbg : env.isDebug = false)
    (hsz : env.getArchiveFileSizeInBytes ap = .ok sz)
    (hex : env.extractTar ap m = .ok ()) :
    (restoreTry env m root name keys).result = .ok (some mk) := by
  unfold restoreTry
  rw [hrd]
  simp only []
  rw [hfm]
  simp only []
  rw [if_neg hmk, hdbg]
  simp only [Bool.false_eq_true, if_false]
  unfold restoreSizeAndExtract
  rw [hsz]
  simp only []
  rw [hex]

theorem restoreCatch_ok {logs0 : List LogEntry} {body : RestoreOutcome} {v : Option String}
    (hb : body.result = .ok v) :
    restoreCatch logs0 body = ⟨.ok v, logs0 ++ body.logs, Event.compressionProbe :: body.events⟩ := by
  unfold restoreCatch
  rw [hb]

theorem restoreCatch_error_nonval {logs0 : List LogEntry} {body : RestoreOutcome} {e : JsError}
    (hb : body.result = .error e) (hn : ¬ e.name = "ValidationError") :
    restoreCatch logs0 body =
      ⟨.ok none, logs0 ++ body.logs ++ [LogEntry.warning ("Failed to restore: " ++ e.message)],
        Event.compressionProbe :: body.events⟩ := by
  unfold restoreCatch
  rw [hb]
  simp only []
  rw [if_neg hn]

/-! ### Helper lemmas: candidate sets -/

theorem mem_candidatesForKey {fs : String → Option Stats} {root name : String}
    {dirEntries : List String} {key : String} {p : String} {st : Stats} :
    (p, st) ∈ candidatesForKey fs root name dirEntries key ↔
      ∃ dir, dir ∈ dirEntries ∧ strStartsWith dir key = true
        ∧ p = pathJoin (pathJoin root dir) name ∧ fs p = some st ∧ st.isFile = true := by
  unfold candidatesForKey
  simp only [List.mem_filter, List.mem_filterMap, List.mem_map, Option.map_eq_some']
  constructor
  · rintro ⟨⟨q, ⟨dir, ⟨hdir, hsw⟩, rfl⟩, stats, hfs, heq⟩, hisf⟩
    cases heq
    exact ⟨dir, hdir, hsw, rfl, hfs, hisf⟩
  · rintro ⟨dir, hdir, hsw, rfl, hfs, hisf⟩
    exact ⟨⟨pathJoin (pathJoin root dir) name, ⟨dir, ⟨hdir, hsw⟩, rfl⟩, st, hfs, rfl⟩, hisf⟩

/-! ### Claim theorems -/

theorem checkKeys_ok_forall : ∀ {keys : List String}, checkKeys keys = .ok () →
    ∀ k ∈ keys, checkKey k = .ok ()
  | [], _, k, hk => absurd hk (by simp)
  | a :: as, h, k, hk => by
    unfold checkKeys at h
    cases ha : checkKey a with
    | error e => rw [ha] at h; cases h
    | ok u =>
      rw [ha] at h
      rcases List.mem_cons.mp hk with rfl | hk'
      · cases u; exact ha
      · exact checkKeys_ok_forall h k hk'

/-- Claim C6: whenever the combined key list `primaryKey :: restoreKeys` has
more than 10 entries, `restoreCache` throws a ValidationError and performs no
collaborator (filesystem) call at all. -/
theorem C6_key_limit (env : RestoreEnv) (paths : List String) (pk : String)
    (rks : List String) (b : Option String)
    (hcount : 10 < (pk :: rks).length) :
    (∃ e, (restoreCache env paths pk rks b).result = .error e ∧ e.name = "ValidationError")
    ∧ (restoreCache env paths pk rks b).events = [] := by
  unfold restoreCache
  cases hp : checkPaths paths with
  | error e' => exact ⟨⟨e', rfl, checkPaths_error_name hp⟩, rfl⟩
  | ok u =>
    simp only []
    rw [if_pos hcount]
    exact ⟨⟨_, rfl, rfl⟩, rfl⟩

/-- Witness for C6 at a concrete 11-key call: no collaborator call happens. -/
theorem C6_witness :
    (restoreCache sampleRestoreEnv ["p"] "k0"
      ["k1", "k2", "k3", "k4", "k5", "k6", "k7", "k8", "k9", "k10"] none).events = [] :=
  (C6_key_limit sampleRestoreEnv ["p"] "k0"
    ["k1", "k2", "k3", "k4", "k5", "k6", "k7", "k8", "k9", "k10"] none (by decide)).2

/-- Claim C7: a key longer than 512 characters or containing a comma makes
`restoreCache` (the key appearing anywhere in the combined key list) and
`saveCache` throw ValidationError, and a comma-free key of length exactly 512
passes key validation. -/
theorem C7_key_rules (key : String) (hbad : 512 < key.length ∨ ',' ∈ key.data) :
    (∀ (env : RestoreEnv) (paths : List String) (pk : String) (rks : List String)
        (b : Option String), key ∈ pk :: rks →
      ∃ e, (restoreCache env paths pk rks b).result = .error e ∧ e.name = "ValidationError")
    ∧ (∀ (env : SaveEnv) (paths : List String) (b : Option String),
      ∃ e, (saveCache env paths key b).result = .error e ∧ e.name = "ValidationError")
    ∧ (∀ k : String, k.length = 512 → ',' ∉ k.data → checkKey k = .ok ()) := by
  refine ⟨?_, ?_, ?_⟩
  · intro env paths pk rks b hmem
    unfold restoreCache
    cases hp : checkPaths paths with
    | error e' => exact ⟨e', rfl, checkPaths_error_name hp⟩
    | ok u =>
      simp only []
      by_cases hc : (pk :: rks).length > 10
      · rw [if_pos hc]
        exact ⟨_, rfl, rfl⟩
      · rw [if_neg hc]
        cases hk : checkKeys (pk :: rks) with
        | error e' => exact ⟨e', rfl, checkKeys_error_name hk⟩
        | ok u' =>
          exfalso
          obtain ⟨e, he, _⟩ := checkKey_invalid hbad
          have hok := checkKeys_ok_forall hk key hmem
          rw [he] at hok
          cases hok
  · intro env paths b
    unfold saveCache
    cases hp : checkPaths paths with
    | error e' => exact ⟨e', rfl, checkPaths_error_name hp⟩
    | ok u =>
      simp only []
      obtain ⟨e, he, hn⟩ := checkKey_invalid hbad
      rw [he]
      exact ⟨e, rfl, hn⟩
  · intro k hlen hnc
    unfold checkKey
    have h1 : ¬ k.length > 512 := by omega
    have h2 : ¬ (k.data.any (fun c => c == ',') = true) := by
      simp only [List.any_eq_true, beq_iff_eq]
      rintro ⟨c, hc, rfl⟩
      exact hnc hc
    rw [if_neg h1, if_neg h2]

set_option maxRecDepth 4096 in
/-- Witness for C7: a 512-character comma-free key passes validation, shown by
applying the claim theorem (instantiated at the bad key ","). -/
theorem C7_witness : checkKey (String.mk (List.replicate 512 'a')) = .ok () :=
  (C7_key_rules "," (Or.inr (by decide))).2.2
    (String.mk (List.replicate 512 'a')) (by decide) (by decide)

/-- Claim C8: an empty paths list makes both operations throw the path
ValidationError before any collaborator call; for restore this outcome is
distinct from the undefined "no cache found" result. -/
theorem C8_empty_paths (envR : RestoreEnv) (envS : SaveEnv) (pk key : String)
    (rks : List String) (b : Option String) :
    ((restoreCache envR [] pk rks b).result
        = .error (validationError "Path Validation Error: At least one directory or file path is required")
      ∧ (restoreCache envR [] pk rks b).events = []
      ∧ (restoreCache envR [] pk rks b).result ≠ .ok none)
    ∧ ((saveCache envS [] key b).result
        = .error (validationError "Path Validation Error: At least one directory or file path is required")
      ∧ (saveCache envS [] key b).events = []) := by
  refine ⟨⟨rfl, rfl, ?_⟩, rfl, rfl⟩
  intro hcontra
  exact Except.noConfusion hcontra

/-- Claim C10: the result, logs and collaborator calls of `restoreCache` do
not depend on the contents of the paths argument beyond its non-emptiness. -/
theorem C10_paths_irrelevant (env : RestoreEnv) (p₁ p₂ : List String) (pk : String)
    (rks : List String) (b : Option String) (h₁ : p₁ ≠ []) (h₂ : p₂ ≠ []) :
    restoreCache env p₁ pk rks b = restoreCache env p₂ pk rks b := by
  unfold restoreCache
  rw [checkPaths_eq_ok h₁, checkPaths_eq_ok h₂]

/-- Witness for C10 at two concrete, different non-empty path lists. -/
theorem C10_witness :
    restoreCache sampleRestoreEnv ["a"] "build-42" [] none
      = restoreCache sampleRestoreEnv ["b", "c"] "build-42" [] none :=
  C10_paths_irrelevant sampleRestoreEnv ["a"] ["b", "c"] "build-42" [] none
    (by decide) (by decide)

/-- Claim C1 counterexample: when path resolution yields the empty set,
`saveCache` throws a plain (non-validation) Error instead of returning the
soft-failure status -1, contradicting the claim that every non-validation
failure after validation is absorbed into status -1. -/
theorem C1_counterexample :
    (saveCache emptyResolveSaveEnv ["p"] "k" none).result
        = .error (plainError "Path Validation Error: Path(s) specified in the action for caching do(es) not exist, hence no cache is being saved.")
      ∧ (plainError "Path Validation Error: Path(s) specified in the action for caching do(es) not exist, hence no cache is being saved.").name
          ≠ "ValidationError"
      ∧ (saveCache emptyResolveSaveEnv ["p"] "k" none).result ≠ .ok (-1) := by
  refine ⟨?_, ?_, ?_⟩ <;> decide

/-- Claim C1 (amended): provided compression-method resolution, path
resolution (with a non-empty resolved set) and temp-directory creation
succeed — these steps run before the try/catch and their failures propagate —
`saveCache` never throws any error other than ValidationError: every other
failure (archive creation, diagnostics, commit) is caught, reported via
logging, and yields the soft-failure status -1 (or success 1). -/
theorem C1_soft_failure_amended (env : SaveEnv) (paths : List String) (key : String)
    (b : Option String) (m : CompressionMethod) (cps : List String) (tmp : String)
    (hm : env.getCompressionMethod = .ok m) (hrp : env.resolvePaths paths = .ok cps)
    (hne : cps ≠ []) (htd : env.createTempDirectory = .ok tmp) :
    (∀ e, (saveCache env paths key b).result = .error e → e.name = "ValidationError")
    ∧ ((saveCache env paths key b).result = .ok 1
        ∨ (saveCache env paths key b).result = .ok (-1)
        ∨ ∃ e, (saveCache env paths key b).result = .error e ∧ e.name = "ValidationError")
    ∧ ((saveCache env paths key b).result = .ok (-1) →
        ∃ s, LogEntry.info s ∈ (saveCache env paths key b).logs
          ∨ LogEntry.warning s ∈ (saveCache env paths key b).logs) := by
  have herr : ∀ e, (saveCache env paths key b).result = .error e → e.name = "ValidationError" := by
    intro e he
    rcases save_error_shape he with h | h | h | ⟨h, _⟩ | h
    · exact h
    · rw [hm] at h
      cases h
    · rw [hrp] at h
      cases h
    · rw [hrp] at h
      cases h
      exact absurd rfl hne
    · rw [htd] at h
      cases h
  refine ⟨herr, ?_, fun h => save_minus_one_logged h⟩
  cases hres : (saveCache env paths key b).result with
  | ok v =>
    rcases save_ok_shape hres with rfl | rfl
    · exact .inl rfl
    · exact .inr (.inl rfl)
  | error e => exact .inr (.inr ⟨e, rfl, herr e hres⟩)

/-- Witness for the amended C1: applying its first conjunct at a concrete
environment whose commit throws an error named "ValidationError". -/
theorem C1_amended_witness : (validationError "boom").name = "ValidationError" :=
  (C1_soft_failure_amended validationStoreSaveEnv ["p"] "k" none .gzip ["p"] "tmp/dir"
    rfl rfl (by decide) rfl).1 (validationError "boom") (by decide)

/-- Claim C2 counterexample: a failing compression-method probe (which runs
before the try/catch of `restoreCache`) propagates as a thrown plain Error,
contradicting "never throws except ValidationError". -/
theorem C2_counterexample :
    (restoreCache probeFailRestoreEnv ["p"] "k" [] none).result
        = .error (plainError "zstd probe failed")
      ∧ (plainError "zstd probe failed").name ≠ "ValidationError" := by
  refine ⟨?_, ?_⟩ <;> decide

/-- Claim C2 (amended): provided compression-method resolution succeeds (it
runs before the try/catch and its failure propagates), `restoreCache` never
throws except ValidationError; in particular a non-validation failure of the
store-root directory listing is caught, downgraded to a warning, and
`restoreCache` returns undefined. -/
theorem C2_soft_failure_amended (env : RestoreEnv) (paths : List String) (pk : String)
    (rks : List String) (b : Option String) (m : CompressionMethod)
    (hm : env.getCompressionMethod = .ok m) :
    (∀ e, (restoreCache env paths pk rks b).result = .error e → e.name = "ValidationError")
    ∧ (∀ e, env.readdir (env.getRepoCacheStorePath b) = .error e →
        e.name ≠ "ValidationError" → paths ≠ [] → ¬ (pk :: rks).length > 10 →
        checkKeys (pk :: rks) = .ok () →
        (restoreCache env paths pk rks b).result = .ok none
        ∧ LogEntry.warning ("Failed to restore: " ++ e.message)
            ∈ (restoreCache env paths pk rks b).logs) := by
  constructor
  · intro e he
    rcases restore_error_shape he with h | h
    · exact h
    · rw [hm] at h
      cases h
  · intro e hrd hn hp hc hk
    rw [restoreCache_happy hp hc hk hm, restoreTry_readdir_error hrd,
      restoreCatch_error_nonval rfl hn]
    exact ⟨rfl, by simp⟩

/-- Witness for the amended C2: with a failing store-root listing the restore
returns undefined and logs a warning. -/
theorem C2_amended_witness :
    (restoreCache readdirFailRestoreEnv ["p"] "k" [] none).result = .ok none
      ∧ LogEntry.warning ("Failed to restore: " ++ (plainError "ENOENT").message)
          ∈ (restoreCache readdirFailRestoreEnv ["p"] "k" [] none).logs :=
  (C2_soft_failure_amended readdirFailRestoreEnv ["p"] "k" [] none .gzip rfl).2
    (plainError "ENOENT") rfl (by decide) (by decide) (by decide) (by decide)

/-- Claim C3 counterexample: with the empty string as primary key the per-key
scan does match a stored entry (every directory name starts with ""), yet
`restoreCache` returns undefined instead of the matched primary key, because
line 105 conflates an empty matched key with the `""` no-match sentinel. -/
theorem C3_counterexample :
    (matchedCaches sampleRestoreEnv.fs "home/cache" "cache.tgz"
        ["build-42", "build-41"] "").head? ≠ none
      ∧ (restoreCache sampleRestoreEnv ["p"] "" [] none).result ≠ .ok (some "")
      ∧ (restoreCache sampleRestoreEnv ["p"] "" [] none).result = .ok none := by
  refine ⟨?_, ?_, ?_⟩ <;> decide

/-- Claim C3 (amended): keys are tried in strict priority order — primary
first, then fallbacks in the given order — and the first key in the list that
has any matching stored entry wins, provided that winning key is non-empty
(an empty matched key is conflated with the no-match sentinel and yields
undefined).  The key list splits as `pre ++ k :: post` where every key of
`pre` matches nothing and `k` matches: then `restoreCache` returns `k` —
whether `k` is the primary key or any fallback — even when a later key's
entry has a more recent modification time, and the scan result is the same
for every choice of the later keys (they are never consulted). -/
theorem C3_key_priority_amended (env : RestoreEnv) (paths : List String) (pk : String)
    (rks : List String) (b : Option String) (m : CompressionMethod)
    (dirEntries : List String) (pre post : List String) (k : String)
    (info : String × Stats) (sz : Nat)
    (hsplit : pk :: rks = pre ++ k :: post)
    (hp : paths ≠ []) (hc : ¬ (pk :: rks).length > 10)
    (hk : checkKeys (pk :: rks) = .ok ())
    (hm : env.getCompressionMethod = .ok m)
    (hrd : env.readdir (env.getRepoCacheStorePath b) = .ok dirEntries)
    (hpre : ∀ k' ∈ pre, (matchedCaches env.fs (env.getRepoCacheStorePath b)
        (env.getCacheFileName m) dirEntries k').head? = none)
    (hmatch : (matchedCaches env.fs (env.getRepoCacheStorePath b)
        (env.getCacheFileName m) dirEntries k).head? = some info)
    (hk0 : ¬ k = "") (hdbg : env.isDebug = false)
    (hsz : env.getArchiveFileSizeInBytes info.1 = .ok sz)
    (hex : env.extractTar info.1 m = .ok ()) :
    (restoreCache env paths pk rks b).result = .ok (some k)
    ∧ ∀ post' : List String,
        firstMatch env.fs (env.getRepoCacheStorePath b) (env.getCacheFileName m)
          dirEntries (pre ++ k :: post') = some (k, info.1) := by
  have hfm : ∀ post' : List String,
      firstMatch env.fs (env.getRepoCacheStorePath b) (env.getCacheFileName m)
        dirEntries (pre ++ k :: post') = some (k, info.1) := by
    intro post'
    rw [firstMatch_append_none hpre]
    exact firstMatch_cons_some hmatch
  refine ⟨?_, hfm⟩
  have hfm' : firstMatch env.fs (env.getRepoCacheStorePath b) (env.getCacheFileName m)
      dirEntries (pk :: rks) = some (k, info.1) := by
    rw [hsplit]
    exact hfm post
  rw [restoreCache_happy hp hc hk hm,
    restoreCatch_ok (restoreTry_happy hrd hfm' hk0 hdbg hsz hex)]

/-- Witness for the amended C3, applied twice: with primary key "build-9"
matching nothing, the fallback key "build" is tried next and wins (returning
"build", via its most recent matching entry "build-41"); and a matching
primary key "build-42" (entry mtime 200) wins over the fallback "build" whose
entry "build-41" is more recently modified (mtime 300). -/
theorem C3_amended_witness :
    (restoreCache sampleRestoreEnv ["p"] "build-9" ["build"] none).result
        = .ok (some "build")
      ∧ (restoreCache sampleRestoreEnv ["p"] "build-42" ["build"] none).result
        = .ok (some "build-42") :=
  ⟨(C3_key_priority_amended sampleRestoreEnv ["p"] "build-9" ["build"] none .gzip
      ["build-42", "build-41"] ["build-9"] [] "build"
      ("home/cache/build-41/cache.tgz", ⟨true, 300⟩) 1048576
      (by decide) (by decide) (by decide) (by decide) rfl rfl
      (by decide) (by decide) (by decide) rfl rfl rfl).1,
   (C3_key_priority_amended sampleRestoreEnv ["p"] "build-42" ["build"] none .gzip
      ["build-42", "build-41"] [] ["build"] "build-42"
      ("home/cache/build-42/cache.tgz", ⟨true, 200⟩) 1048576
      (by decide) (by decide) (by decide) (by decide) rfl rfl
      (by decide) (by decide) (by decide) rfl rfl rfl).1⟩

/-- Claim C4: for a single key, the candidate set is exactly the
entry-directory names with that key as a prefix whose expected archive file
exists in the snapshot and is a regular file; the selected candidate (head of
the descending-mtime sort) is a candidate of maximal modification time, and
the selection is empty exactly when the candidate set is. -/
theorem C4_candidates_and_recency (fs : String → Option Stats) (root name : String)
    (dirEntries : List String) (key : String) :
    (∀ p st, (p, st) ∈ candidatesForKey fs root name dirEntries key ↔
      ∃ dir, dir ∈ dirEntries ∧ strStartsWith dir key = true
        ∧ p = pathJoin (pathJoin root dir) name ∧ fs p = some st ∧ st.isFile = true)
    ∧ (∀ info, (matchedCaches fs root name dirEntries key).head? = some info →
        info ∈ candidatesForKey fs root name dirEntries key
        ∧ ∀ c ∈ candidatesForKey fs root name dirEntries key,
            c.2.mtimeMs ≤ info.2.mtimeMs)
    ∧ ((matchedCaches fs root name dirEntries key).head? = none ↔
        candidatesForKey fs root name dirEntries key = []) := by
  refine ⟨fun p st => mem_candidatesForKey, ?_, ?_⟩
  · intro info h
    unfold matchedCaches at h
    exact sortDesc_head_max h
  · unfold matchedCaches
    exact sortDesc_head_none

/-- Witness for C4: the selected entry for key "build-42" is a candidate and
has maximal mtime among the candidates. -/
theorem C4_witness :
    ("home/cache/build-42/cache.tgz", (⟨true, 200⟩ : Stats))
        ∈ candidatesForKey sampleRestoreEnv.fs "home/cache" "cache.tgz"
            ["build-42", "build-41"] "build-42"
      ∧ ∀ c ∈ candidatesForKey sampleRestoreEnv.fs "home/cache" "cache.tgz"
            ["build-42", "build-41"] "build-42",
          c.2.mtimeMs ≤ (200 : Int) :=
  (C4_candidates_and_recency sampleRestoreEnv.fs "home/cache" "cache.tgz"
    ["build-42", "build-41"] "build-42").2.1
    ("home/cache/build-42/cache.tgz", ⟨true, 200⟩) (by decide)

/-- Claim C5: when the commit throws a ReserveCacheError (occupied destination
entry), `saveCache` reports it via an informational message (never a warning),
does not propagate it, and returns the soft-failure status -1. -/
theorem C5_reserve_conflict (env : SaveEnv) (paths : List String) (key : String)
    (b : Option String) (m : CompressionMethod) (cps : List String) (tmp : String)
    (msg : String) (sz : Nat)
    (hp : paths ≠ []) (hkey : checkKey key = .ok ())
    (hm : env.getCompressionMethod = .ok m) (hrp : env.resolvePaths paths = .ok cps)
    (hne : ¬ cps.length = 0) (htd : env.createTempDirectory = .ok tmp)
    (htar : ∀ f ps mm, env.createTar f ps mm = .ok ())
    (hdbg : env.isDebug = false)
    (hsz : ∀ p, env.getArchiveFileSizeInBytes p = .ok sz)
    (hstore : ∀ src dest, env.storeCacheFile src dest = .error (reserveCacheError msg)) :
    (saveCache env paths key b).result = .ok (-1)
    ∧ LogEntry.info ("Failed to save: " ++ msg) ∈ (saveCache env paths key b).logs
    ∧ ∀ w, LogEntry.warning w ∉ (saveCache env paths key b).logs := by
  rw [saveCache_happy hp hkey hm hrp hne htd]
  have hbody : saveTry env m cps tmp (pathJoin tmp (env.getCacheFileName m)) key b
      = ⟨.error (reserveCacheError msg),
         [LogEntry.debug ("File Size: " ++ toString sz),
          LogEntry.debug ("Saving Cache (Key: " ++ key ++ ")"),
          LogEntry.debug ("Cache Store Path: " ++ toString b)],
         [.createTarCall tmp, .getSize (pathJoin tmp (env.getCacheFileName m)),
          .storeCacheFileCall (pathJoin tmp (env.getCacheFileName m))
            (pathJoin (env.getRepoCacheStorePath b) key)]⟩ := by
    unfold saveTry saveTry.saveSizeAndStore
    rw [htar, hdbg]
    simp only [Bool.false_eq_true, if_false]
    rw [hsz]
    simp only []
    rw [hstore]
    rfl
  rw [hbody]
  have hcatch : applyCatch (Except.error (reserveCacheError msg) : Except JsError Int)
      = (.ok (-1), [LogEntry.info ("Failed to save: " ++ msg)]) := by
    unfold applyCatch saveCatch reserveCacheError
    dsimp only
    rw [if_neg (by decide), if_pos rfl]
  dsimp only
  rw [hcatch]
  dsimp only
  refine ⟨by rw [runFinally_result], ?_, ?_⟩
  · apply runFinally_mem_logs
    simp
  · intro w
    apply runFinally_no_warning
    simp

/-- Witness for C5 at a concrete environment whose commit hits an occupied
entry: status -1 and an informational message. -/
theorem C5_witness :
    (saveCache reserveConflictSaveEnv ["p"] "k" none).result = .ok (-1)
      ∧ LogEntry.info ("Failed to save: " ++ "occupied")
          ∈ (saveCache reserveConflictSaveEnv ["p"] "k" none).logs :=
  let h := C5_reserve_conflict reserveConflictSaveEnv ["p"] "k" none .gzip ["p"]
    "tmp/dir" "occupied" 1048576 (by decide) (by decide) rfl rfl (by decide) rfl
    (fun _ _ _ => rfl) rfl (fun _ => rfl) (fun _ _ => rfl)
  ⟨h.1, h.2.1⟩

/-- Claim C9: cleanup is asymmetric — `restoreCache` never deletes any file
(no unlink call ever appears among its collaborator calls), while `saveCache`
always attempts to delete its temporary archive once the temp directory was
created (whether the try block succeeds, soft-fails or rethrows), and the
outcome of that deletion never changes `saveCache`'s returned result. -/
theorem C9_cleanup_asymmetry :
    (∀ (env : RestoreEnv) (paths : List String) (pk : String) (rks : List String)
        (b : Option String) (p : String),
      Event.unlink p ∉ (restoreCache env paths pk rks b).events)
    ∧ (∀ (env : SaveEnv) (paths : List String) (key : String) (b : Option String)
        (m : CompressionMethod) (cps : List String) (tmp : String),
        env.getCompressionMethod = .ok m → env.resolvePaths paths = .ok cps →
        ¬ cps.length = 0 → env.createTempDirectory = .ok tmp →
        paths ≠ [] → checkKey key = .ok () →
        Event.unlink (pathJoin tmp (env.getCacheFileName m)) ∈ (saveCache env paths key b).events)
    ∧ (∀ (env : SaveEnv) (u₁ u₂ : String → Except JsError Unit) (paths : List String)
        (key : String) (b : Option String),
        (saveCache { env with unlinkFile := u₁ } paths key b).result
          = (saveCache { env with unlinkFile := u₂ } paths key b).result) := by
  refine ⟨restore_no_unlink, ?_, ?_⟩
  · intro env paths key b m cps tmp hm hrp hne htd hp hkey
    exact save_unlink_event hp hkey hm hrp hne htd
  · intro env u₁ u₂ paths key b
    rw [save_result_unlink_irrel env u₁, save_result_unlink_irrel env u₂]

/-- Witness for C9: the concrete save run attempts to unlink its temporary
archive. -/
theorem C9_witness :
    Event.unlink (pathJoin "tmp/dir" "cache.tgz")
      ∈ (saveCache sampleSaveEnv ["p"] "k" none).events :=
  C9_cleanup_asymmetry.2.1 sampleSaveEnv ["p"] "k" none .gzip ["p"] "tmp/dir"
    rfl rfl (by decide) rfl (by decide) (by decide)

end LocalCache
